import Mathlib

/-!
Shallow embedding of the substack-mcp post cache (src/post-cache.ts,
src/rss-fetcher.ts, src/types.ts) and proofs about its cache-management
and query operations.

Modelling conventions:
* `Date` values are milliseconds since the epoch, modelled as `Int`
  (`Date.prototype.toISOString` followed by `new Date(isoString)` is exact
  at millisecond precision, so ISO serialization is a bijection on the
  millisecond value; `ISODate` wraps the value to keep the serialized
  representation distinct in types).
* The FlexSearch `Document` index is derived data, rebuilt wholesale from
  `this.posts` (rebuildSearchIndex); we model it by the list of posts it
  was built from (`searchIndexPosts`).  The opaque ranked results that
  `searchIndex.searchAsync` produces for a non-empty query are passed in
  as an oracle (`fieldResults`, one id list per indexed field), and the
  merge/deduplicate loop of `searchPosts` is embedded faithfully.
* Methods that perform I/O are modelled as pure state transformers: the
  fetch outcome is an `Except` argument, `Date.now()` is a `now` argument,
  and the on-disk cache file is an `Option DiskCache` threaded through.
* JS `this.posts.slice(a, b)` on natural-number arguments is
  `(posts.drop a).take (b - a)`.
-/

namespace SubstackMcp

/-- One post parsed from the RSS feed (interface `SubstackPost` in
src/types.ts); `pubDate` is epoch milliseconds. -/
structure SubstackPost where
  id : String
  title : String
  link : String
  description : String
  content : String
  contentText : String
  pubDate : Int
  author : String
  categories : List String
  imageUrl : Option String
deriving DecidableEq, Repr

/-- An ISO-8601 date string, identified with the epoch-millisecond value it
denotes (`toISOString`/`new Date` round-trip exactly at this precision). -/
structure ISODate where
  ms : Int
deriving DecidableEq, Repr

/-- JS `Date.prototype.toISOString`. -/
def dateToISO (t : Int) : ISODate := ⟨t⟩

/-- JS `new Date(isoString).getTime()`. -/
def dateOfISO (s : ISODate) : Int := s.ms

/-- A post as it appears inside the JSON disk cache: `pubDate` serialized
to an ISO string (src/post-cache.ts, saveToDisk). -/
structure DiskPost where
  id : String
  title : String
  link : String
  description : String
  content : String
  contentText : String
  pubDate : ISODate
  author : String
  categories : List String
  imageUrl : Option String
deriving DecidableEq, Repr

/-- Interface `DiskCache` in src/types.ts: the persisted snapshot. -/
structure DiskCache where
  version : String
  feedUrl : String
  lastFetched : ISODate
  posts : List DiskPost
deriving DecidableEq, Repr

/-- Constant `CACHE_VERSION` (`private readonly CACHE_VERSION = "1.0.0"` in
src/post-cache.ts). -/
def CACHE_VERSION : String := "1.0.0"

/-- The constructor-time configuration of a `PostCache`. -/
structure CacheConfig where
  feedUrl : String
  cacheTTL : Int
deriving DecidableEq, Repr

/-- The mutable state of a `PostCache` instance: `posts`, the search index
(represented by the posts it was built from), and `lastFetched` (epoch ms,
`none` when never fetched). -/
structure PostCacheState where
  posts : List SubstackPost
  searchIndexPosts : List SubstackPost
  lastFetched : Option Int
deriving DecidableEq, Repr

/-- Serialization of one post in `saveToDisk`:
`{ ...post, pubDate: post.pubDate.toISOString() }`. -/
def postToDisk (p : SubstackPost) : DiskPost :=
  { id := p.id, title := p.title, link := p.link, description := p.description
    content := p.content, contentText := p.contentText
    pubDate := dateToISO p.pubDate
    author := p.author, categories := p.categories, imageUrl := p.imageUrl }

/-- Deserialization of one post in `loadFromDisk`:
`{ ...post, pubDate: new Date(post.pubDate) }`. -/
def diskToPost (p : DiskPost) : SubstackPost :=
  { id := p.id, title := p.title, link := p.link, description := p.description
    content := p.content, contentText := p.contentText
    pubDate := dateOfISO p.pubDate
    author := p.author, categories := p.categories, imageUrl := p.imageUrl }

/-- Model of `PostCache.saveToDisk`: builds the `DiskCache` record that is
written to the cache file (`lastFetched?.toISOString() ||
new Date().toISOString()` uses `now` when no fetch has happened). -/
def saveToDisk (cfg : CacheConfig) (s : PostCacheState) (now : Int) : DiskCache :=
  { version := CACHE_VERSION
    feedUrl := cfg.feedUrl
    lastFetched := dateToISO (s.lastFetched.getD now)
    posts := s.posts.map postToDisk }

/-- Model of `PostCache.loadFromDisk`: `disk = none` models a missing or unparseable
cache file.  Returns the `true/false` result together with the state after
the call (on success the posts are adopted and the index rebuilt from them;
on any failed validation the state is untouched). -/
def loadFromDisk (cfg : CacheConfig) (s : PostCacheState) (disk : Option DiskCache) :
    Bool × PostCacheState :=
  match disk with
  | none => (false, s)
  | some dc =>
    if dc.version ≠ CACHE_VERSION then (false, s)
    else if dc.feedUrl ≠ cfg.feedUrl then (false, s)
    else
      let posts := dc.posts.map diskToPost
      (true, { posts := posts, searchIndexPosts := posts
               lastFetched := some (dateOfISO dc.lastFetched) })

/-- Model of `PostCache.rebuildSearchIndex`: the index is reconstructed wholesale
from the current posts. -/
def rebuildSearchIndex (s : PostCacheState) : PostCacheState :=
  { s with searchIndexPosts := s.posts }

/-- Model of `PostCache.refreshCache`.  `fetchResult` is the outcome of
`fetchSubstackFeed(this.feedUrl)`.  On success the posts are replaced
wholesale (in the exact order the fetch returned them — no sorting),
`lastFetched` is set, the index is rebuilt and the snapshot written.  On
failure the error is swallowed if `this.posts` is non-empty and rethrown
when `this.posts.length === 0`. -/
def refreshCache (cfg : CacheConfig) (s : PostCacheState) (disk : Option DiskCache)
    (fetchResult : Except String (List SubstackPost)) (now : Int) :
    Except String (PostCacheState × Option DiskCache) :=
  match fetchResult with
  | .ok posts =>
      let s1 : PostCacheState :=
        rebuildSearchIndex { s with posts := posts, lastFetched := some now }
      .ok (s1, some (saveToDisk cfg s1 now))
  | .error e =>
      if s.posts.length = 0 then .error e
      else .ok (s, disk)

/-- The staleness test inside `PostCache.ensureFreshCache`:
`age = lastFetched ? now - lastFetched.getTime() : Infinity;
age > cacheTTL` (an absent `lastFetched` gives age `Infinity`, which
exceeds every finite TTL). -/
def isStaleAge (lastFetched : Option Int) (now ttl : Int) : Bool :=
  match lastFetched with
  | none => true
  | some t => now - t > ttl

/-- Model of `PostCache.ensureFreshCache`: refresh exactly when the age exceeds the
TTL, otherwise leave everything untouched (the fetch is not performed). -/
def ensureFreshCache (cfg : CacheConfig) (s : PostCacheState) (disk : Option DiskCache)
    (fetchResult : Except String (List SubstackPost)) (now : Int) :
    Except String (PostCacheState × Option DiskCache) :=
  if isStaleAge s.lastFetched now cfg.cacheTTL then
    refreshCache cfg s disk fetchResult now
  else
    .ok (s, disk)

/-- Model of `PostCache.getRecentPosts` (after the freshness gate):
`this.posts.slice(offset, offset + limit)`. -/
def getRecentPosts (posts : List SubstackPost) (limit : Nat) (offset : Nat) :
    List SubstackPost :=
  (posts.drop offset).take limit

/-- Model of `PostCache.getPostByUrl` (after the freshness gate):
`this.posts.find(p => p.link === url) || null`. -/
def getPostByUrl (posts : List SubstackPost) (url : String) : Option SubstackPost :=
  posts.find? (fun p => p.link == url)

/-- JS `bigList.startsWith(pat)` on character lists. -/
def charsStartWith : List Char → List Char → Bool
  | _, [] => true
  | [], _ :: _ => false
  | a :: as, b :: bs => a == b && charsStartWith as bs

/-- JS `String.prototype.includes` on character lists. -/
def charsInclude : List Char → List Char → Bool
  | [], pat => pat.isEmpty
  | l@(_ :: t), pat => charsStartWith l pat || charsInclude t pat

/-- JS `s.includes(sub)`. -/
def strIncludes (s sub : String) : Bool :=
  charsInclude s.toList sub.toList

/-- JS `String.prototype.toLowerCase`: lowercase character by character. -/
def strToLower (s : String) : String :=
  ⟨s.data.map Char.toLower⟩

/-- Model of `PostCache.getPostByTitle` (after the freshness gate): case-insensitive;
with `exact` full equality of the lowercased title, otherwise substring
containment; first match in collection order. -/
def getPostByTitle (posts : List SubstackPost) (title : String) (exact : Bool) :
    Option SubstackPost :=
  let lowerTitle := strToLower title
  if exact then
    posts.find? (fun p => strToLower p.title == lowerTitle)
  else
    posts.find? (fun p => strIncludes (strToLower p.title) lowerTitle)

/-- Model of `PostCache.getPostsByDateRange` (after the freshness gate):
`this.posts.filter(p => p.pubDate >= startDate && p.pubDate <= endDate)
.slice(0, limit)`. -/
def getPostsByDateRange (posts : List SubstackPost) (startDate endDate : Int)
    (limit : Nat) : List SubstackPost :=
  (posts.filter (fun p => decide (startDate ≤ p.pubDate) && decide (p.pubDate ≤ endDate))).take limit

/-- The merge/deduplicate loop of `PostCache.searchPosts`: for each
result list of each indexed field, collect each not-yet-seen id (ids are marked
seen before the lookup, as in the source) and append the matching post
from `this.posts` when one exists. -/
def searchMergeStep (posts : List SubstackPost)
    (acc : List String × List SubstackPost) (postId : String) :
    List String × List SubstackPost :=
  if acc.1.contains postId then acc
  else
    match posts.find? (fun p => p.id == postId) with
    | some post => (postId :: acc.1, acc.2 ++ [post])
    | none => (postId :: acc.1, acc.2)

/-- JS `String.prototype.trim`: drop leading and trailing whitespace
characters. -/
def strTrim (s : String) : String :=
  ⟨((s.data.dropWhile Char.isWhitespace).reverse.dropWhile Char.isWhitespace).reverse⟩

/-- Model of `PostCache.searchPosts` (after the freshness gate).  `fieldResults` is
the oracle for `searchIndex.searchAsync(query, {limit, enrich})`: the list
of per-field id lists FlexSearch returned.  An empty or whitespace-only
query (`!query || query.trim() === ""`, as in the source where the literal
is single-quoted) short-circuits to
`this.posts.slice(0, limit)`. -/
def searchPosts (posts : List SubstackPost) (fieldResults : List (List String))
    (query : String) (limit : Nat) : List SubstackPost :=
  if query == "" || strTrim query == "" then
    posts.take limit
  else
    ((fieldResults.foldl (fun acc ids => ids.foldl (searchMergeStep posts) acc)
        ([], [])).2).take limit

/-- Boolean test for the ordering invariant claimed by the spec: each
adjacent pair of the collection is ordered by `pubDate` descending. -/
def sortedByPubDateDescB : List SubstackPost → Bool
  | [] => true
  | [_] => true
  | a :: b :: t => decide (b.pubDate ≤ a.pubDate) && sortedByPubDateDescB (b :: t)

/-- Ordering invariant claimed by the spec on the Article Collection: sorted by
`publishedAt` (`pubDate`) descending, newest first. -/
def sortedByPubDateDesc (l : List SubstackPost) : Prop :=
  sortedByPubDateDescB l = true

instance (l : List SubstackPost) : Decidable (sortedByPubDateDesc l) :=
  inferInstanceAs (Decidable (sortedByPubDateDescB l = true))

/-- Posts of a successful `refreshCache` result (projection used to state
concrete facts about refresh outcomes; `[]` on the error branch). -/
def refreshedPosts (r : Except String (PostCacheState × Option DiskCache)) :
    List SubstackPost :=
  match r with
  | .ok (s, _) => s.posts
  | .error _ => []

/-- A concrete post used in witnesses and counterexamples. -/
def mkPost (n : String) (d : Int) : SubstackPost :=
  { id := n, title := "title-" ++ n, link := "https://example.substack.com/p/" ++ n
    description := "", content := "", contentText := ""
    pubDate := d, author := "author", categories := [], imageUrl := none }

/-- A concrete configuration with a 1000 ms TTL, used in witnesses. -/
def cfg1000 : CacheConfig := { feedUrl := "https://feed.example/rss", cacheTTL := 1000 }

/-- A concrete state holding one post, fetched at t = 0, used in witnesses. -/
def st0 : PostCacheState :=
  { posts := [mkPost "w" 10], searchIndexPosts := [mkPost "w" 10], lastFetched := some 0 }

/-- The state of a freshly constructed `PostCache` (no posts, never fetched). -/
def emptyState : PostCacheState :=
  { posts := [], searchIndexPosts := [], lastFetched := none }

/-- Twelve concrete posts, newest first, used in witnesses. -/
def samplePosts : List SubstackPost :=
  [mkPost "p01" 120, mkPost "p02" 110, mkPost "p03" 100, mkPost "p04" 90,
   mkPost "p05" 80, mkPost "p06" 70, mkPost "p07" 60, mkPost "p08" 50,
   mkPost "p09" 40, mkPost "p10" 30, mkPost "p11" 20, mkPost "p12" 10]

/-- Concrete collection for the date-range scenario: articles dated
2024-12-31, 2024-06-15, 2024-01-01 (newest first); dates are encoded as the
integers 20241231, 20240615, 20240101, which order the same way. -/
def scenarioPosts : List SubstackPost :=
  [mkPost "dec" 20241231, mkPost "jun" 20240615, mkPost "jan" 20240101]

/-- If `p` is in `l`, satisfies the predicate, and is the only element of
`l` satisfying it, then `l.find? f` returns `p`. -/
theorem find_unique_mem {α : Type} (f : α → Bool) (p : α) (l : List α)
    (hmem : p ∈ l) (hfp : f p = true) (huniq : ∀ q ∈ l, f q = true → q = p) :
    l.find? f = some p := by
  induction l with
  | nil => cases hmem
  | cons a t ih =>
    by_cases ha : f a = true
    · have hap : a = p := huniq a (List.mem_cons_self a t) ha
      subst hap
      exact List.find?_cons_of_pos t ha
    · have hap : a ≠ p := fun h => ha (h ▸ hfp)
      have hmem' : p ∈ t := by
        rcases List.mem_cons.mp hmem with h | h
        · exact absurd h.symm hap
        · exact h
      rw [List.find?_cons_of_neg t (by simpa using ha)]
      exact ih hmem' (fun q hq => huniq q (List.mem_cons_of_mem a hq))

/-- Shared fact: a failed fetch with a non-empty collection leaves the
whole state and the disk file untouched. -/
theorem refreshCache_error_keeps_state
    (cfg : CacheConfig) (s : PostCacheState) (disk : Option DiskCache)
    (e : String) (now : Int) (h : s.posts ≠ []) :
    refreshCache cfg s disk (.error e) now = .ok (s, disk) := by
  have hlen : ¬ s.posts.length = 0 := by
    simpa [List.length_eq_zero] using h
  simp [refreshCache, hlen]

/-- C6: for every collection state and every limit, a search whose query
trims to the empty string (empty or whitespace-only) returns exactly the
first `limit` articles in collection order, with no scoring. -/
theorem C6_empty_query_returns_head_slice
    (posts : List SubstackPost) (fieldResults : List (List String))
    (query : String) (limit : Nat) (h : strTrim query = "") :
    searchPosts posts fieldResults query limit = posts.take limit := by
  unfold searchPosts
  have hc : (query == "" || strTrim query == "") = true := by
    simp [h]
  rw [if_pos hc]

theorem C6_empty_query_returns_head_slice_witness :
    strTrim "" = "" ∧
    searchPosts samplePosts [] "" 10 = samplePosts.take 10 :=
  ⟨by decide, C6_empty_query_returns_head_slice samplePosts [] "" 10 (by decide)⟩

/-- C7: `getPostsByDateRange` returns exactly the articles whose `pubDate`
lies within the inclusive bounds, in collection order, truncated to at most
`limit`; a range with `start > end` yields `[]`, not an error. -/
theorem C7_date_range_inclusive_ordered
    (posts : List SubstackPost) (startDate endDate : Int) (limit : Nat) :
    getPostsByDateRange posts startDate endDate limit =
      (posts.filter (fun p =>
        decide (startDate ≤ p.pubDate) && decide (p.pubDate ≤ endDate))).take limit ∧
    (∀ p ∈ getPostsByDateRange posts startDate endDate limit,
        startDate ≤ p.pubDate ∧ p.pubDate ≤ endDate) ∧
    (getPostsByDateRange posts startDate endDate limit).Sublist posts ∧
    (getPostsByDateRange posts startDate endDate limit).length ≤ limit ∧
    (endDate < startDate → getPostsByDateRange posts startDate endDate limit = []) := by
  refine ⟨rfl, ?_, ?_, List.length_take_le _ _, ?_⟩
  · intro p hp
    have hp' : p ∈ posts.filter (fun p =>
        decide (startDate ≤ p.pubDate) && decide (p.pubDate ≤ endDate)) :=
      List.mem_of_mem_take hp
    have := (List.mem_filter.mp hp').2
    simpa using this
  · exact (List.take_sublist _ _).trans (List.filter_sublist _)
  · intro hlt
    unfold getPostsByDateRange
    have : posts.filter (fun p =>
        decide (startDate ≤ p.pubDate) && decide (p.pubDate ≤ endDate)) = [] := by
      rw [List.filter_eq_nil_iff]
      intro a _
      simp only [Bool.and_eq_true, decide_eq_true_eq, not_and]
      intro h1 h2
      exact absurd (le_trans h1 h2) (not_le.mpr hlt)
    rw [this, List.take_nil]

theorem C7_date_range_inclusive_ordered_witness :
    ((20240615 : Int) < 20241231 ∧
      getPostsByDateRange scenarioPosts 20241231 20240615 100 = []) ∧
    getPostsByDateRange scenarioPosts 20240101 20240615 100 =
      [mkPost "jun" 20240615, mkPost "jan" 20240101] :=
  ⟨⟨by decide,
    (C7_date_range_inclusive_ordered scenarioPosts 20241231 20240615 100).2.2.2.2
      (by decide)⟩,
   by decide⟩

/-- C8: `getRecentPosts` returns the contiguous slice of the collection
starting at `offset` with length at most `limit`; an out-of-range offset
yields the empty list, never an error. -/
theorem C8_recent_is_contiguous_slice
    (posts : List SubstackPost) (limit offset : Nat) :
    getRecentPosts posts limit offset = (posts.drop offset).take limit ∧
    (getRecentPosts posts limit offset).length ≤ limit ∧
    (getRecentPosts posts limit offset).Sublist posts ∧
    (posts.length ≤ offset → getRecentPosts posts limit offset = []) := by
  refine ⟨rfl, List.length_take_le _ _, ?_, ?_⟩
  · exact (List.take_sublist _ _).trans (List.drop_sublist _ _)
  · intro h
    unfold getRecentPosts
    rw [List.drop_eq_nil_of_le h, List.take_nil]

theorem C8_recent_is_contiguous_slice_witness :
    samplePosts.length ≤ 50 ∧ getRecentPosts samplePosts 10 50 = [] :=
  ⟨by decide, (C8_recent_is_contiguous_slice samplePosts 10 50).2.2.2 (by decide)⟩

/-- C1 (as stated, refuted): the collection produced by a refresh is NOT
sorted by `pubDate` descending for every source order — neither
`fetchSubstackFeed` nor `refreshCache` sorts, so a source that returns
oldest-first yields an unsorted collection.  Concretely, refreshing from a
feed that returns the post dated 100 before the post dated 200 leaves the
collection in exactly that (ascending) order. -/
theorem C1_refresh_not_sorted_counterexample :
    refreshedPosts (refreshCache cfg1000 emptyState none
        (.ok [mkPost "older" 100, mkPost "newer" 200]) 1000) =
      [mkPost "older" 100, mkPost "newer" 200] ∧
    ¬ sortedByPubDateDesc [mkPost "older" 100, mkPost "newer" 200] :=
  ⟨rfl, by decide⟩

/-- C1 (amended): every successful refresh replaces the collection with the
list the feed source returned, in source order; the resulting collection is
sorted by `pubDate` descending whenever the source returned it in that
order (the cache itself never re-sorts). -/
theorem C1_refresh_preserves_source_order
    (cfg : CacheConfig) (s : PostCacheState) (disk : Option DiskCache)
    (fetched : List SubstackPost) (now : Int) :
    refreshedPosts (refreshCache cfg s disk (.ok fetched) now) = fetched ∧
    (sortedByPubDateDesc fetched →
      sortedByPubDateDesc (refreshedPosts (refreshCache cfg s disk (.ok fetched) now))) :=
  ⟨rfl, fun h => h⟩

theorem C1_refresh_preserves_source_order_witness :
    sortedByPubDateDesc [mkPost "newer" 200, mkPost "older" 100] ∧
    sortedByPubDateDesc (refreshedPosts (refreshCache cfg1000 emptyState none
        (.ok [mkPost "newer" 200, mkPost "older" 100]) 1000)) :=
  ⟨by decide,
   (C1_refresh_preserves_source_order cfg1000 emptyState none
      [mkPost "newer" 200, mkPost "older" 100] 1000).2 (by decide)⟩

/-- C2: when the fetch fails during a refresh, a non-empty prior collection
is kept (the error is swallowed and queries such as `getRecentPosts 1 0`
answer exactly as before), while with no prior posts the error propagates
as a hard failure with no empty-collection fallback. -/
theorem C2_refresh_failure_policy
    (cfg : CacheConfig) (s : PostCacheState) (disk : Option DiskCache)
    (e : String) (now : Int) :
    (s.posts ≠ [] →
      refreshCache cfg s disk (.error e) now = .ok (s, disk) ∧
      getRecentPosts (refreshedPosts (refreshCache cfg s disk (.error e) now)) 1 0 =
        getRecentPosts s.posts 1 0) ∧
    (s.posts = [] → refreshCache cfg s disk (.error e) now = .error e) := by
  constructor
  · intro h
    have hkeep := refreshCache_error_keeps_state cfg s disk e now h
    refine ⟨hkeep, ?_⟩
    rw [hkeep]
    rfl
  · intro h
    simp [refreshCache, h]

theorem C2_refresh_failure_policy_witness :
    (st0.posts ≠ [] ∧
      refreshCache cfg1000 st0 none (.error "network unreachable") 99 = .ok (st0, none)) ∧
    (emptyState.posts = [] ∧
      refreshCache cfg1000 emptyState none (.error "network unreachable") 99 =
        .error "network unreachable") :=
  ⟨⟨by decide,
    ((C2_refresh_failure_policy cfg1000 st0 none "network unreachable" 99).1
      (by decide)).1⟩,
   ⟨rfl,
    (C2_refresh_failure_policy cfg1000 emptyState none "network unreachable" 99).2
      rfl⟩⟩

/-- C3: the staleness check refreshes if and only if no fetch ever happened
(`lastFetched` absent, age `Infinity`) or `now - lastFetched > ttl`; with a
1000 ms TTL a query 500 ms after a fetch does not refresh and a query
1500 ms after it does. -/
theorem C3_staleness_characterization :
    (∀ (lf : Option Int) (now ttl : Int),
      isStaleAge lf now ttl = true ↔ lf = none ∨ ∃ t, lf = some t ∧ now - t > ttl) ∧
    isStaleAge none 0 1000 = true ∧
    isStaleAge (some 0) 500 1000 = false ∧
    isStaleAge (some 0) 1500 1000 = true ∧
    (∀ (cfg : CacheConfig) (s : PostCacheState) (disk : Option DiskCache)
        (fr : Except String (List SubstackPost)) (now : Int),
      isStaleAge s.lastFetched now cfg.cacheTTL = false →
        ensureFreshCache cfg s disk fr now = .ok (s, disk)) ∧
    (∀ (cfg : CacheConfig) (s : PostCacheState) (disk : Option DiskCache)
        (fr : Except String (List SubstackPost)) (now : Int),
      isStaleAge s.lastFetched now cfg.cacheTTL = true →
        ensureFreshCache cfg s disk fr now = refreshCache cfg s disk fr now) := by
  refine ⟨?_, rfl, by decide, by decide, ?_, ?_⟩
  · intro lf now ttl
    cases lf with
    | none => simp [isStaleAge]
    | some t => simp [isStaleAge]
  · intro cfg s disk fr now h
    unfold ensureFreshCache
    rw [if_neg (by simp [h])]
  · intro cfg s disk fr now h
    unfold ensureFreshCache
    rw [if_pos h]

theorem C3_staleness_characterization_witness :
    (isStaleAge st0.lastFetched 500 cfg1000.cacheTTL = false ∧
      ensureFreshCache cfg1000 st0 none (.error "x") 500 = .ok (st0, none)) ∧
    (isStaleAge st0.lastFetched 1500 cfg1000.cacheTTL = true ∧
      ensureFreshCache cfg1000 st0 none (.error "x") 1500 =
        refreshCache cfg1000 st0 none (.error "x") 1500) :=
  ⟨⟨by decide,
    C3_staleness_characterization.2.2.2.2.1 cfg1000 st0 none (.error "x") 500
      (by decide)⟩,
   ⟨by decide,
    C3_staleness_characterization.2.2.2.2.2 cfg1000 st0 none (.error "x") 1500
      (by decide)⟩⟩

/-- C10: a refresh whose fetch fails, with a non-empty prior collection,
leaves the entire cache state unchanged — posts, search index and
`lastFetched` all keep their prior values (as does the disk file) — so the
cache is exactly as stale as before and any later stale query goes back
into `refreshCache`. -/
theorem C10_failed_refresh_frame
    (cfg : CacheConfig) (s : PostCacheState) (disk : Option DiskCache)
    (e : String) (now : Int) (h : s.posts ≠ []) :
    refreshCache cfg s disk (.error e) now = .ok (s, disk) ∧
    (∀ (fr : Except String (List SubstackPost)) (now2 : Int),
      isStaleAge s.lastFetched now2 cfg.cacheTTL = true →
        ensureFreshCache cfg s disk fr now2 = refreshCache cfg s disk fr now2) := by
  refine ⟨refreshCache_error_keeps_state cfg s disk e now h, ?_⟩
  intro fr now2 hstale
  unfold ensureFreshCache
  rw [if_pos hstale]

theorem C10_failed_refresh_frame_witness :
    st0.posts ≠ [] ∧
    refreshCache cfg1000 st0 none (.error "boom") 50 = .ok (st0, none) :=
  ⟨by decide,
   (C10_failed_refresh_frame cfg1000 st0 none "boom" 50 (by decide)).1⟩

/-- Serialization then deserialization of one post is the identity. -/
theorem diskToPost_postToDisk (p : SubstackPost) : diskToPost (postToDisk p) = p := rfl

/-- C4: persisting a snapshot via `saveToDisk` and reloading it via
`loadFromDisk` under the same configuration (same schema version, same feed
address) succeeds and reproduces an Article Collection identical in content
and order to the one persisted (and restores the fetch timestamp). -/
theorem C4_disk_roundtrip
    (cfg : CacheConfig) (s s0 : PostCacheState) (now : Int) :
    loadFromDisk cfg s0 (some (saveToDisk cfg s now)) =
      (true, { posts := s.posts, searchIndexPosts := s.posts
               lastFetched := some (s.lastFetched.getD now) }) := by
  unfold loadFromDisk saveToDisk
  simp [dateOfISO, dateToISO, List.map_map, Function.comp_def, diskToPost_postToDisk]

/-- C5: `loadFromDisk` adopts a persisted snapshot exactly when one is
present (and parseable), its `version` equals `CACHE_VERSION`, and its
`feedUrl` equals the configured feed address; a snapshot failing either
check (or an absent/unparseable file) leaves the result `false` and the
in-memory state untouched, exactly as if no snapshot existed. -/
theorem C5_snapshot_validation
    (cfg : CacheConfig) (s : PostCacheState) (disk : Option DiskCache) :
    ((loadFromDisk cfg s disk).1 = true ↔
      ∃ dc, disk = some dc ∧ dc.version = CACHE_VERSION ∧ dc.feedUrl = cfg.feedUrl) ∧
    ((loadFromDisk cfg s disk).1 = false → (loadFromDisk cfg s disk).2 = s) ∧
    (∀ dc, disk = some dc →
      (dc.version ≠ CACHE_VERSION ∨ dc.feedUrl ≠ cfg.feedUrl) →
      loadFromDisk cfg s disk = (false, s)) := by
  refine ⟨?_, ?_, ?_⟩
  · cases disk with
    | none => simp [loadFromDisk]
    | some dc =>
      by_cases hv : dc.version = CACHE_VERSION
      · by_cases hf : dc.feedUrl = cfg.feedUrl
        · simp [loadFromDisk, hv, hf]
        · simp [loadFromDisk, hv, hf]
      · simp [loadFromDisk, hv]
  · cases disk with
    | none => intro _; rfl
    | some dc =>
      by_cases hv : dc.version = CACHE_VERSION
      · by_cases hf : dc.feedUrl = cfg.feedUrl
        · simp [loadFromDisk, hv, hf]
        · simp [loadFromDisk, hv, hf]
      · simp [loadFromDisk, hv]
  · intro dc hdc hbad
    subst hdc
    rcases hbad with hv | hf
    · simp [loadFromDisk, hv]
    · by_cases hv : dc.version = CACHE_VERSION
      · simp [loadFromDisk, hv, hf]
      · simp [loadFromDisk, hv]

/-- A persisted snapshot written by schema version 0.9.0, used to witness
the discard behaviour of `loadFromDisk`. -/
def staleVersionSnapshot : DiskCache :=
  { version := "0.9.0", feedUrl := "https://feed.example/rss"
    lastFetched := dateToISO 0, posts := [] }

theorem C5_snapshot_validation_witness :
    staleVersionSnapshot.version ≠ CACHE_VERSION ∧
    loadFromDisk cfg1000 st0 (some staleVersionSnapshot) = (false, st0) :=
  ⟨by decide,
   (C5_snapshot_validation cfg1000 st0 (some staleVersionSnapshot)).2.2
     staleVersionSnapshot rfl (Or.inl (by decide))⟩

/-- Two distinct posts sharing one title, used to refute C9. -/
def sharedTitleA : SubstackPost :=
  { mkPost "post-a" 200 with title := "Shared Title" }

/-- Second post with the same title as `sharedTitleA` but its own id and
link. -/
def sharedTitleB : SubstackPost :=
  { mkPost "post-b" 100 with title := "Shared Title" }

/-- C9 (as stated, refuted): with two posts sharing a title, `getPostByUrl`
on the second post resolves to the second post while `getPostByTitle` with
`exact = true` resolves to the FIRST post carrying that title, so the two
lookups return different ids for an article present in the collection. -/
theorem C9_url_title_disagree_counterexample :
    sharedTitleB ∈ [sharedTitleA, sharedTitleB] ∧
    getPostByUrl [sharedTitleA, sharedTitleB] sharedTitleB.link = some sharedTitleB ∧
    getPostByTitle [sharedTitleA, sharedTitleB] sharedTitleB.title true = some sharedTitleA ∧
    sharedTitleA.id ≠ sharedTitleB.id := by
  refine ⟨by decide, by decide, ?_, by decide⟩
  decide

/-- C9 (amended): for every article in the collection that is the unique
holder of its `link` and the unique holder of its lowercased title,
`getPostByUrl` on its url and `getPostByTitle` with `exact = true` on its
title both succeed with that article, hence return the same id. -/
theorem C9_url_title_same_id
    (posts : List SubstackPost) (p : SubstackPost)
    (hmem : p ∈ posts)
    (hlink : ∀ q ∈ posts, q.link = p.link → q = p)
    (htitle : ∀ q ∈ posts, strToLower q.title = strToLower p.title → q = p) :
    getPostByUrl posts p.link = some p ∧
    getPostByTitle posts p.title true = some p ∧
    (getPostByUrl posts p.link).map SubstackPost.id =
      (getPostByTitle posts p.title true).map SubstackPost.id := by
  have h1 : getPostByUrl posts p.link = some p := by
    apply find_unique_mem _ p posts hmem (by simp)
    intro q hq hbeq
    exact hlink q hq (by simpa using hbeq)
  have h2 : getPostByTitle posts p.title true = some p := by
    unfold getPostByTitle
    simp only [if_true]
    apply find_unique_mem _ p posts hmem (by simp)
    intro q hq hbeq
    exact htitle q hq (by simpa using hbeq)
  exact ⟨h1, h2, by rw [h1, h2]⟩

theorem C9_url_title_same_id_witness :
    getPostByUrl samplePosts (mkPost "p03" 100).link = some (mkPost "p03" 100) ∧
    getPostByTitle samplePosts (mkPost "p03" 100).title true = some (mkPost "p03" 100) :=
  ⟨(C9_url_title_same_id samplePosts (mkPost "p03" 100)
      (by decide) (by decide) (by decide)).1,
   (C9_url_title_same_id samplePosts (mkPost "p03" 100)
      (by decide) (by decide) (by decide)).2.1⟩

end SubstackMcp
